import Mathlib

/-!
Verification of the `fused-channel` pub/sub library (`src/channel.js`, plus the
`rafDebounce` helper of the revised bundle).

The embedding follows the source closely:

* `fusedChannel(name)` picks its transport once: a `BroadcastChannel` when the
  host provides one, otherwise a plain `EventTarget`.  The two variants are
  modelled separately (`BChan` / `LocalChannel`), since the claims distinguish
  them.
* Handlers are identified by natural numbers; every model operation that can
  invoke handlers returns the invocation log as a list of
  `(handler id, argument)` pairs, in invocation order.
* The host primitives (`EventTarget.dispatchEvent`, synchronous and in
  registration order; `BroadcastChannel.postMessage`, which throws
  `InvalidStateError` on a closed channel and queues the message to every
  same-named channel object other than the poster) are modelled from their
  standard semantics, since the source is written against them.
-/

namespace FusedChannel

/-- Structured-clonable JS values, as far as the bus inspects them:
strings, numbers and objects (ordered field lists).  Envelopes and raw
arriving messages are both `JVal`s. -/
inductive JVal where
  | str : String → JVal
  | num : Int → JVal
  | obj : List (String × JVal) → JVal

/-- Property access `v.k` on a JS value: a field of an object, otherwise
`none` (i.e. `undefined`, which is also what optional chaining `v?.k`
yields on a missing object). -/
def jget : JVal → String → Option JVal
  | .obj fields, k => fields.lookup k
  | _, _ => none

/-- Strict equality `x === s` of a possibly-`undefined` JS value against the
string `s`: true exactly when the value is that string. -/
def jeqStr : Option JVal → String → Bool
  | some (.str s), t => s == t
  | _, _ => false

/-- The guard both `on` closures apply before calling the handler:
`type === "*" || msg?.type === type` (with `msg` the arriving data). -/
def topicMatches (topic : String) (msg : JVal) : Bool :=
  topic == "*" || jeqStr (jget msg "type") topic

/-- The envelope `publish` constructs:
`{ type, payload, origin, channel: name, ts: Date.now() }`. -/
def mkMsg (name : String) (ts : Int) (ty : String) (payload : JVal)
    (origin : String) : JVal :=
  .obj [("type", .str ty), ("payload", payload), ("origin", .str origin),
        ("channel", .str name), ("ts", .num ts)]

/-- `publish(type, payload = {}, origin = "udf")` argument defaulting, folded
into envelope construction: an omitted payload becomes the empty object `{}`,
an omitted origin the sentinel `"udf"`. -/
def chMsg (name : String) (ts : Int) (ty : String) (payload? : Option JVal)
    (origin? : Option String) : JVal :=
  mkMsg name ts ty (payload?.getD (.obj [])) (origin?.getD "udf")

/-! ### The `EventTarget` fallback variant -/

/-- One listener registered on the fallback `EventTarget` by `on`: it is
attached under `eventName` and is the closure
`e => { const msg = e.detail; if (type === "*" || msg?.type === type) handler(msg) }`,
with `topic` the captured `type` and `handler` the identity of the user handler. -/
structure EvListener where
  eventName : String
  topic : String
  handler : Nat
deriving DecidableEq

/-- A channel whose transport is the fallback `EventTarget`. -/
structure LocalChannel where
  name : String
  listeners : List EvListener
deriving DecidableEq

/-- A fresh fallback channel: `fusedChannel(name)` in a host without
`BroadcastChannel` starts with no listeners. -/
def mkLocal (name : String) : LocalChannel := ⟨name, []⟩

/-- `t.dispatchEvent(new CustomEvent(evName, { detail }))`: synchronously
invoke, in registration order, every listener attached under `evName`; each
such listener is the `on` closure, which calls the user handler exactly when
its topic guard accepts the detail.  Returns the invocation log. -/
def dispatchEvent (ls : List EvListener) (evName : String) (detail : JVal) :
    List (Nat × JVal) :=
  ls.filterMap fun l =>
    if l.eventName = evName ∧ topicMatches l.topic detail then
      some (l.handler, detail)
    else none

/-- `on(type, handler)` on the fallback variant:
`const eventName = (type === "*") ? "message" : type; t.addEventListener(eventName, ...)`.
`addEventListener` appends the listener. -/
def onLocal (ch : LocalChannel) (topic : String) (hid : Nat) : LocalChannel :=
  ⟨ch.name,
   ch.listeners ++ [⟨if topic = "*" then "message" else topic, topic, hid⟩]⟩

/-- `on` together with the value it hands back to its caller.  The body of `on` in the source has no return statement, so the caller receives `undefined`,
modelled as `none`: no unsubscribe capability is returned. -/
def onLocalR (ch : LocalChannel) (topic : String) (hid : Nat) :
    LocalChannel × Option (LocalChannel → LocalChannel) :=
  (onLocal ch topic hid, none)

/-- `publish(type, payload, origin)` on the fallback variant: build the
envelope, then `t.dispatchEvent(new CustomEvent(type, {detail: msg}))`
followed by `t.dispatchEvent(new CustomEvent("message", {detail: msg}))`
(the extra dispatch is how the source reaches wildcard listeners).
Returns the synchronous invocation log of the whole call. -/
def publishLocal (ch : LocalChannel) (ty : String) (payload? : Option JVal)
    (origin? : Option String) (ts : Int) : List (Nat × JVal) :=
  let msg := chMsg ch.name ts ty payload? origin?
  dispatchEvent ch.listeners ty msg ++ dispatchEvent ch.listeners "message" msg

/-- `close()` on the fallback variant: the body is
`if (t.close) try { t.close(); } catch (_) {}` and an `EventTarget` has no
`close` method, so the guard fails and nothing at all happens — listeners
are kept and no exception can arise. -/
def closeLocal (ch : LocalChannel) : LocalChannel := ch

/-! ### The `BroadcastChannel` variant

A `BroadcastChannel` world is the list of channel objects sharing the host;
`postMessage` follows the HTML standard: it throws `InvalidStateError` when
the posting channel is closed, and otherwise queues the message as a task to
every channel object with the same name that is not closed, *excluding the
poster itself*.  Nothing is delivered synchronously. -/

/-- One `BroadcastChannel` object, as `fusedChannel` uses it: its name, its
closed flag, and the listeners `on` attached to its `"message"` event — each
being the closure
`e => { if (type === "*" || e.data?.type === type) handler(e.data) }`,
recorded as its captured `(topic, handler id)`. -/
structure BChan where
  name : String
  closed : Bool
  listeners : List (String × Nat)
deriving DecidableEq

/-- `on(type, handler)` on the broadcast variant:
`t.addEventListener("message", ...)` appends the guarded closure. -/
def onB (c : BChan) (topic : String) (hid : Nat) : BChan :=
  ⟨c.name, c.closed, c.listeners ++ [(topic, hid)]⟩

/-- Broadcast `on` together with its caller-visible return value: as in the
fallback variant, the body has no return statement, so the caller receives
`undefined` (`none`) — no unsubscribe capability. -/
def onBR (c : BChan) (topic : String) (hid : Nat) :
    BChan × Option (BChan → BChan) :=
  (onB c topic hid, none)

/-- Fire a raw arriving message at one channel object: a closed channel
discards it; otherwise every `"message"` listener runs in registration
order, and each (being the `on` closure) calls its user handler exactly when
`type === "*" || e.data?.type === type`.  Returns the invocation log. -/
def deliverData (c : BChan) (data : JVal) : List (Nat × JVal) :=
  if c.closed then []
  else c.listeners.filterMap fun l =>
    if topicMatches l.1 data then some (l.2, data) else none

/-- `BroadcastChannel.postMessage` (HTML standard semantics): error when the
poster is closed; otherwise the queued delivery tasks `(destination, data)`
— one for every channel object of the same name, not closed, other than the
poster. -/
def bPostMessage (w : List BChan) (src : Nat) (data : JVal) :
    Except String (List (Nat × JVal)) :=
  match w[src]? with
  | none => .ok []
  | some c =>
    if c.closed then .error "InvalidStateError"
    else .ok ((List.range w.length).filterMap fun i =>
        match w[i]? with
        | some d =>
          if i ≠ src ∧ d.name = c.name ∧ d.closed = false then some (i, data)
          else none
        | none => none)

/-- Run queued delivery tasks, producing the handler invocation log. -/
def bDeliverAll (w : List BChan) (pend : List (Nat × JVal)) :
    List (Nat × JVal) :=
  pend.flatMap fun p =>
    match w[p.1]? with
    | some c => deliverData c p.2
    | none => []

/-- `publish(type, payload, origin)` on the broadcast variant: build the
envelope (the channel name is that of the poster), then `t.postMessage(msg)`.
`publish` does not catch, so a `postMessage` exception propagates to the
caller; on success, the result is only the queued tasks — no handler runs
inside `publish`. -/
def publishB (w : List BChan) (src : Nat) (ty : String) (payload? : Option JVal)
    (origin? : Option String) (ts : Int) : Except String (List (Nat × JVal)) :=
  match w[src]? with
  | some c => bPostMessage w src (chMsg c.name ts ty payload? origin?)
  | none => .ok []

/-- `BroadcastChannel.close()` (HTML standard semantics): set the closed
flag; closing an already-closed channel changes nothing and never throws. -/
def bClose (c : BChan) : BChan := ⟨c.name, true, c.listeners⟩

/-- `close()` on the broadcast variant, applied to the channel object at
`src` in the world. -/
def bCloseAt (w : List BChan) (src : Nat) : List BChan :=
  match w[src]? with
  | some c => w.set src (bClose c)
  | none => w

/-- The result `close()` propagates to its caller, for an arbitrary
teardown behaviour `prim` of the underlying primitive: the body
`if (t.close) try { t.close(); } catch (_) {}` catches whatever the
primitive throws, so the caller always sees a normal return (`Except.ok`). -/
def closeCaught (prim : BChan → Except String BChan) (c : BChan) :
    Except String BChan :=
  match prim c with
  | .ok c2 => .ok c2
  | .error _ => .ok c

/-! ### The `rafDebounce` helper (revised bundle, `src/unnamed/part_002`)

`rafDebounce(fn)` keeps a `ticking` flag; a call while ticking returns at
once, otherwise it sets the flag and schedules a `requestAnimationFrame`
callback closing over *these* arguments; the callback clears the flag and
applies `fn` to them.  The model is a step machine over the two observable
events: a call to the wrapper, and the animation-frame boundary firing the
pending callback. -/

/-- State of one wrapper: `pend` holds the arguments captured by the pending
animation-frame callback (the `ticking` flag is set exactly while `pend` is
`some`), and `execs` logs the completed executions of the wrapped `fn` with
their arguments, in order. -/
structure DebState (A : Type) where
  pend : Option A
  execs : List A
deriving DecidableEq

/-- An observable event for the wrapper. -/
inductive DebEvent (A : Type) where
  | call : A → DebEvent A
  | frame : DebEvent A
deriving DecidableEq

/-- One step.  `call a`: `if (ticking) return;` drops the call, else set the
flag and schedule the callback with these arguments.  `frame`: the
animation-frame boundary runs the pending callback
`() => { ticking = false; fn.apply(this, args); }` (a no-op boundary when
nothing is scheduled). -/
def debStep (s : DebState A) : DebEvent A → DebState A
  | .call a =>
    match s.pend with
    | some _ => s
    | none => ⟨some a, s.execs⟩
  | .frame =>
    match s.pend with
    | some a => ⟨none, s.execs ++ [a]⟩
    | none => s

/-- Run the wrapper over a sequence of events. -/
def debRun (s : DebState A) (evs : List (DebEvent A)) : DebState A :=
  evs.foldl debStep s

/-! ### Registration sequences

`regAll` folds a whole sequence of `on` registrations onto a fallback
channel; `regListener` is the listener one registration installs. -/

/-- The listener `on(topic, hid)` installs on the fallback `EventTarget`. -/
def regListener (r : String × Nat) : EvListener :=
  ⟨if r.1 = "*" then "message" else r.1, r.1, r.2⟩

/-- Apply a sequence of `on` registrations, oldest first. -/
def regAll (ch : LocalChannel) (regs : List (String × Nat)) : LocalChannel :=
  regs.foldl (fun c r => onLocal c r.1 r.2) ch

/-- Number of invocations of handler `hid` in an invocation log. -/
def invCount (calls : List (Nat × JVal)) (hid : Nat) : Nat :=
  (calls.map Prod.fst).count hid

/-! ### Helper lemmas -/

theorem jeqStr_iff (v : Option JVal) (s : String) :
    jeqStr v s = true ↔ v = some (.str s) := by
  cases v with
  | none => simp [jeqStr]
  | some j => cases j <;> simp [jeqStr]

theorem chMsg_type (name : String) (ts : Int) (ty : String) (p? : Option JVal)
    (o? : Option String) : jget (chMsg name ts ty p? o?) "type" = some (.str ty) := rfl

theorem dispatchEvent_append (ls ms : List EvListener) (ev : String) (d : JVal) :
    dispatchEvent (ls ++ ms) ev d = dispatchEvent ls ev d ++ dispatchEvent ms ev d := by
  simp [dispatchEvent]

theorem mem_dispatchEvent_snd {c : Nat × JVal} {ls : List EvListener} {ev : String}
    {d : JVal} (h : c ∈ dispatchEvent ls ev d) : c.2 = d := by
  rcases List.mem_filterMap.mp h with ⟨l, _, hl⟩
  by_cases hc : l.eventName = ev ∧ topicMatches l.topic d
  · rw [if_pos hc] at hl
    cases hl
    rfl
  · rw [if_neg hc] at hl
    cases hl

theorem mem_publishLocal_snd {c : Nat × JVal} {ch : LocalChannel} {ty : String}
    {p? : Option JVal} {o? : Option String} {ts : Int}
    (h : c ∈ publishLocal ch ty p? o? ts) : c.2 = chMsg ch.name ts ty p? o? := by
  rcases List.mem_append.mp h with h1 | h1
  · exact mem_dispatchEvent_snd h1
  · exact mem_dispatchEvent_snd h1

theorem invCount_append (a b : List (Nat × JVal)) (hid : Nat) :
    invCount (a ++ b) hid = invCount a hid + invCount b hid := by
  simp [invCount, List.count_append]

theorem invCount_dispatch_fresh (ls : List EvListener) (ev : String) (d : JVal)
    (hid : Nat) (h : ∀ l ∈ ls, l.handler ≠ hid) :
    invCount (dispatchEvent ls ev d) hid = 0 := by
  rw [invCount, List.count_eq_zero]
  intro hmem
  rcases List.mem_map.mp hmem with ⟨c, hc, hfst⟩
  rcases List.mem_filterMap.mp hc with ⟨l, hlmem, hl⟩
  by_cases hcond : l.eventName = ev ∧ topicMatches l.topic d
  · rw [if_pos hcond] at hl
    cases hl
    exact h l hlmem hfst
  · rw [if_neg hcond] at hl
    cases hl

theorem invCount_deliver_fresh (c : BChan) (d : JVal) (hid : Nat)
    (h : ∀ l ∈ c.listeners, l.2 ≠ hid) :
    invCount (deliverData c d) hid = 0 := by
  rw [invCount, List.count_eq_zero]
  intro hmem
  rcases List.mem_map.mp hmem with ⟨q, hq, hfst⟩
  unfold deliverData at hq
  by_cases hcl : c.closed
  · rw [if_pos hcl] at hq
    cases hq
  · rw [if_neg hcl] at hq
    rcases List.mem_filterMap.mp hq with ⟨l, hlmem, hl⟩
    by_cases hcond : topicMatches l.1 d = true
    · rw [if_pos hcond] at hl
      cases hl
      exact h l hlmem hfst
    · rw [if_neg hcond] at hl
      cases hl

theorem filterMap_guard {α β : Type} (q : α → Bool) (g : α → β) (l : List α) :
    (l.filterMap fun a => if q a then some (g a) else none) = (l.filter q).map g := by
  induction l with
  | nil => rfl
  | cons a rest ih =>
    by_cases h : q a <;> simp [List.filterMap_cons, List.filter_cons, h, ih]

theorem dispatchEvent_singleton (l : EvListener) (ev : String) (d : JVal) :
    dispatchEvent [l] ev d =
      if l.eventName = ev ∧ topicMatches l.topic d then [(l.handler, d)] else [] := by
  by_cases h : l.eventName = ev ∧ topicMatches l.topic d <;> simp [dispatchEvent, h]

theorem invCount_nil (hid : Nat) : invCount [] hid = 0 := rfl

theorem invCount_singleton (hid h2 : Nat) (d : JVal) :
    invCount [(h2, d)] hid = if h2 = hid then 1 else 0 := by
  by_cases h : h2 = hid
  · simp [invCount, h]
  · unfold invCount
    rw [if_neg h, List.count_eq_zero]
    simp only [List.map_cons, List.map_nil, List.mem_singleton]
    exact fun hh => h hh.symm

theorem invCount_ite (c : Prop) [Decidable c] (hid : Nat) (d : JVal) :
    invCount (if c then [(hid, d)] else []) hid = if c then 1 else 0 := by
  by_cases h : c <;> simp [h, invCount]

/-- Decomposition of a publish on the fallback variant right after a fresh
registration: the previously registered handlers contribute nothing to the
invocation count of the fresh handler, and the new listener fires once per
dispatch whose event name and guard accept it. -/
theorem invCount_publish_onLocal (ch : LocalChannel) (topic ty : String) (hid : Nat)
    (p? : Option JVal) (o? : Option String) (ts : Int)
    (hfresh : ∀ l ∈ ch.listeners, l.handler ≠ hid) :
    invCount (publishLocal (onLocal ch topic hid) ty p? o? ts) hid
      = (if (if topic = "*" then "message" else topic) = ty ∧
            topicMatches topic (chMsg ch.name ts ty p? o?) then 1 else 0)
        + (if (if topic = "*" then "message" else topic) = "message" ∧
            topicMatches topic (chMsg ch.name ts ty p? o?) then 1 else 0) := by
  have hshape : publishLocal (onLocal ch topic hid) ty p? o? ts
      = (dispatchEvent ch.listeners ty (chMsg ch.name ts ty p? o?)
        ++ dispatchEvent [⟨if topic = "*" then "message" else topic, topic, hid⟩] ty
            (chMsg ch.name ts ty p? o?))
        ++ (dispatchEvent ch.listeners "message" (chMsg ch.name ts ty p? o?)
        ++ dispatchEvent [⟨if topic = "*" then "message" else topic, topic, hid⟩] "message"
            (chMsg ch.name ts ty p? o?)) := by
    show dispatchEvent (ch.listeners ++ [_]) ty _ ++ dispatchEvent (ch.listeners ++ [_]) "message" _ = _
    rw [dispatchEvent_append, dispatchEvent_append]
    rfl
  rw [hshape, invCount_append, invCount_append, invCount_append,
      invCount_dispatch_fresh _ _ _ _ hfresh, invCount_dispatch_fresh _ _ _ _ hfresh,
      dispatchEvent_singleton, dispatchEvent_singleton]
  simp only [Nat.zero_add, invCount_ite]

/-- Decomposition of a delivery to a broadcast channel object right after a
registration: the new listener receives the arriving data appended after the
deliveries to the older listeners, exactly when its guard accepts the data. -/
theorem deliverData_onB (c : BChan) (topic : String) (hid : Nat) (data : JVal)
    (hcl : c.closed = false) :
    deliverData (onB c topic hid) data
      = deliverData c data
        ++ (if topicMatches topic data then [(hid, data)] else []) := by
  unfold deliverData onB
  by_cases h : topicMatches topic data <;>
    simp [hcl, List.filterMap_append, h]

theorem invCount_deliver_onB (c : BChan) (topic : String) (hid : Nat) (data : JVal)
    (hfresh : ∀ l ∈ c.listeners, l.2 ≠ hid) (hcl : c.closed = false) :
    invCount (deliverData (onB c topic hid) data) hid
      = if topicMatches topic data then 1 else 0 := by
  rw [deliverData_onB c topic hid data hcl, invCount_append,
      invCount_deliver_fresh c data hid hfresh]
  by_cases h : topicMatches topic data <;> simp [h, invCount_singleton, invCount_nil]

theorem regAll_name (ch : LocalChannel) (regs : List (String × Nat)) :
    (regAll ch regs).name = ch.name := by
  induction regs generalizing ch with
  | nil => rfl
  | cons r rest ih => exact ih (onLocal ch r.1 r.2)

theorem regAll_listeners (ch : LocalChannel) (regs : List (String × Nat)) :
    (regAll ch regs).listeners = ch.listeners ++ regs.map regListener := by
  induction regs generalizing ch with
  | nil => simp [regAll]
  | cons r rest ih =>
    show (regAll (onLocal ch r.1 r.2) rest).listeners = _
    rw [ih]
    simp [onLocal, regListener]

/-- The listeners a `type`-named dispatch reaches, for a channel whose
listeners all come from `on`: exactly the concrete registrations for that
type, kept in registration order (`ty ≠ "message"`; a wildcard registration
listens under `"message"` and is missed by this dispatch). -/
theorem dispatch_regs_typed (regs : List (String × Nat)) (ty : String) (env : JVal)
    (hty : ty ≠ "message") (henv : jget env "type" = some (.str ty)) :
    dispatchEvent (regs.map regListener) ty env
      = (regs.filter fun r => r.1 == ty && r.1 != "*").map fun r => (r.2, env) := by
  induction regs with
  | nil => rfl
  | cons r rest ih =>
    rw [List.map_cons, List.filter_cons]
    have hsplit := dispatchEvent_append [regListener r] (rest.map regListener) ty env
    rw [List.singleton_append] at hsplit
    rw [hsplit, dispatchEvent_singleton, ih]
    by_cases hw : r.1 = "*"
    · have hcond : ¬((regListener r).eventName = ty ∧ topicMatches (regListener r).topic env) := by
        simp [regListener, hw]
        intro hmsg
        exact absurd hmsg.symm hty
      rw [if_neg hcond]
      simp [hw]
    · by_cases hr : r.1 = ty
      · have hcond : (regListener r).eventName = ty ∧ topicMatches (regListener r).topic env := by
          constructor
          · show (if r.1 = "*" then "message" else r.1) = ty
            rw [if_neg hw]
            exact hr
          · simp [regListener, topicMatches, henv, jeqStr, hr]

        rw [if_pos hcond]
        have : (r.1 == ty && r.1 != "*") = true := by
          simp [hr, hw]
          rw [← hr]
          exact hw
        rw [this]
        simp [regListener]
      · have hcond : ¬((regListener r).eventName = ty ∧ topicMatches (regListener r).topic env) := by
          simp [regListener, hw]
          intro hmsg
          exact absurd hmsg hr
        rw [if_neg hcond]
        have : (r.1 == ty && r.1 != "*") = false := by simp [hr]
        rw [this]
        simp

/-- The listeners the extra `"message"` dispatch reaches: exactly the
wildcard registrations, kept in registration order (`ty ≠ "message"`; a
concrete registration for `"message"` listens here too but its guard
rejects an envelope of a different type). -/
theorem dispatch_regs_message (regs : List (String × Nat)) (ty : String) (env : JVal)
    (hty : ty ≠ "message") (henv : jget env "type" = some (.str ty)) :
    dispatchEvent (regs.map regListener) "message" env
      = (regs.filter fun r => r.1 == "*").map fun r => (r.2, env) := by
  induction regs with
  | nil => rfl
  | cons r rest ih =>
    rw [List.map_cons, List.filter_cons]
    have hsplit := dispatchEvent_append [regListener r] (rest.map regListener) "message" env
    rw [List.singleton_append] at hsplit
    rw [hsplit, dispatchEvent_singleton, ih]
    by_cases hw : r.1 = "*"
    · have hcond : (regListener r).eventName = "message" ∧ topicMatches (regListener r).topic env := by
        simp [regListener, hw, topicMatches]
      rw [if_pos hcond]
      simp [hw, regListener]
    · by_cases hr : r.1 = "message"
      · have hcond : ¬((regListener r).eventName = "message" ∧ topicMatches (regListener r).topic env) := by
          simp [regListener, hw, topicMatches, henv, jeqStr, hr]
          exact hty
        rw [if_neg hcond]
        have : (r.1 == "*") = false := by simp [hw]
        rw [this]
        simp
      · have hcond : ¬((regListener r).eventName = "message" ∧ topicMatches (regListener r).topic env) := by
          simp [regListener, hw]
          intro hmsg
          exact absurd hmsg hr
        rw [if_neg hcond]
        have : (r.1 == "*") = false := by simp [hw]
        rw [this]
        simp

/-- Full synchronous invocation log of a publish on the fallback variant,
for a channel built by a sequence of `on` registrations (`ty ≠ "message"`):
first every matching concrete registration in registration order, then every
wildcard registration in registration order, each with the one envelope. -/
theorem publishLocal_formula (name : String) (regs : List (String × Nat)) (ty : String)
    (p? : Option JVal) (o? : Option String) (ts : Int) (hty : ty ≠ "message") :
    publishLocal (regAll (mkLocal name) regs) ty p? o? ts
      = ((regs.filter fun r => r.1 == ty && r.1 != "*").map
            fun r => (r.2, chMsg name ts ty p? o?))
        ++ ((regs.filter fun r => r.1 == "*").map
            fun r => (r.2, chMsg name ts ty p? o?)) := by
  show dispatchEvent (regAll (mkLocal name) regs).listeners ty
        (chMsg (regAll (mkLocal name) regs).name ts ty p? o?)
      ++ dispatchEvent (regAll (mkLocal name) regs).listeners "message"
        (chMsg (regAll (mkLocal name) regs).name ts ty p? o?) = _
  rw [regAll_name, regAll_listeners]
  show dispatchEvent ([] ++ regs.map regListener) ty (chMsg name ts ty p? o?)
      ++ dispatchEvent ([] ++ regs.map regListener) "message" (chMsg name ts ty p? o?) = _
  rw [List.nil_append,
      dispatch_regs_typed regs ty _ hty (chMsg_type name ts ty p? o?),
      dispatch_regs_message regs ty _ hty (chMsg_type name ts ty p? o?)]

/-- The listeners a `"message"`-named dispatch reaches for an envelope whose
type field is the string "message" itself: both the wildcard registrations
and the concrete "message" registrations match, interleaved in global
registration order. -/
theorem dispatch_regs_msgty (regs : List (String × Nat)) (env : JVal)
    (henv : jget env "type" = some (.str "message")) :
    dispatchEvent (regs.map regListener) "message" env
      = (regs.filter fun r => r.1 == "*" || r.1 == "message").map
          fun r => (r.2, env) := by
  induction regs with
  | nil => rfl
  | cons r rest ih =>
    rw [List.map_cons, List.filter_cons]
    have hsplit := dispatchEvent_append [regListener r] (rest.map regListener) "message" env
    rw [List.singleton_append] at hsplit
    rw [hsplit, dispatchEvent_singleton, ih]
    by_cases hw : r.1 = "*"
    · have hcond : (regListener r).eventName = "message"
          ∧ topicMatches (regListener r).topic env := by
        simp [regListener, hw, topicMatches]
      rw [if_pos hcond]
      simp [hw, regListener]
    · by_cases hr : r.1 = "message"
      · have hcond : (regListener r).eventName = "message"
            ∧ topicMatches (regListener r).topic env := by
          constructor
          · show (if r.1 = "*" then "message" else r.1) = "message"
            rw [if_neg hw]
            exact hr
          · simp [regListener, topicMatches, henv, jeqStr, hr]
        rw [if_pos hcond]
        have : (r.1 == "*" || r.1 == "message") = true := by simp [hr]
        rw [this]
        simp [regListener]
      · have hcond : ¬((regListener r).eventName = "message"
            ∧ topicMatches (regListener r).topic env) := by
          simp [regListener, hw]
          intro hmsg
          exact absurd hmsg hr
        rw [if_neg hcond]
        have : (r.1 == "*" || r.1 == "message") = false := by simp [hw, hr]
        rw [this]
        simp

/-- Full synchronous invocation log of a publish of the type `"message"`
itself: the type-named dispatch and the extra dispatch are both
`"message"`-named, so the matching registrations — wildcard and concrete
"message", interleaved in global registration order — are each invoked
twice, with the one envelope. -/
theorem publishLocal_formula_message (name : String) (regs : List (String × Nat))
    (p? : Option JVal) (o? : Option String) (ts : Int) :
    publishLocal (regAll (mkLocal name) regs) "message" p? o? ts
      = ((regs.filter fun r => r.1 == "*" || r.1 == "message").map
            fun r => (r.2, chMsg name ts "message" p? o?))
        ++ ((regs.filter fun r => r.1 == "*" || r.1 == "message").map
            fun r => (r.2, chMsg name ts "message" p? o?)) := by
  show dispatchEvent (regAll (mkLocal name) regs).listeners "message"
        (chMsg (regAll (mkLocal name) regs).name ts "message" p? o?)
      ++ dispatchEvent (regAll (mkLocal name) regs).listeners "message"
        (chMsg (regAll (mkLocal name) regs).name ts "message" p? o?) = _
  rw [regAll_name, regAll_listeners]
  show dispatchEvent ([] ++ regs.map regListener) "message"
        (chMsg name ts "message" p? o?)
      ++ dispatchEvent ([] ++ regs.map regListener) "message"
        (chMsg name ts "message" p? o?) = _
  rw [List.nil_append,
      dispatch_regs_msgty regs _ (chMsg_type name ts "message" p? o?)]

theorem topicMatches_iff (topic : String) (msg : JVal) :
    topicMatches topic msg = true ↔ (topic = "*" ∨ jget msg "type" = some (.str topic)) := by
  unfold topicMatches
  rw [Bool.or_eq_true, beq_iff_eq, jeqStr_iff]

/-- When `postMessage` succeeds, the queued destination set never contains
the posting channel object itself. -/
theorem bPostMessage_ok_excludes (w : List BChan) (src : Nat) (data : JVal)
    (pend : List (Nat × JVal)) (h : bPostMessage w src data = .ok pend) :
    ∀ q ∈ pend, q.1 ≠ src := by
  intro q hq
  unfold bPostMessage at h
  split at h
  · cases h
    cases hq
  · split at h
    · cases h
    · cases h
      rcases List.mem_filterMap.mp hq with ⟨i, hirange, hi⟩
      split at hi
      · split at hi
        · cases hi
          rename_i hcond
          exact hcond.1
        · cases hi
      · cases hi

/-- While a callback is pending, every further call to the wrapper is
dropped without touching the state. -/
theorem debRun_calls_pending {A : Type} (x : A) (e : List A) (l : List A) :
    debRun ⟨some x, e⟩ (l.map DebEvent.call) = ⟨some x, e⟩ := by
  induction l with
  | nil => rfl
  | cons y ys ih => exact ih

/-! ### Claims -/

/-- C1 (amended): on the EventTarget fallback variant, for a publish whose
type is not the reserved string "message", a handler freshly registered via
on(type, h) before publish(type, payload, origin) on the same Channel is
invoked exactly once for that publish; every handler invocation of that
publish carries the one constructed envelope, whose type, payload and origin
fields equal the published values and whose channel field equals the name of
the channel.  As stated over every channel the claim fails: the
BroadcastChannel variant excludes the posting channel object from delivery,
so a handler on the same Channel is invoked zero times (see the
counterexample); and on the fallback variant a publish of type "message" is
delivered twice to its subscriber. -/
theorem C1_local_delivery (ch : LocalChannel) (ty o : String) (hid : Nat)
    (p : JVal) (ts : Int) (hty : ty ≠ "message")
    (hfresh : ∀ l ∈ ch.listeners, l.handler ≠ hid) :
    invCount (publishLocal (onLocal ch ty hid) ty (some p) (some o) ts) hid = 1 ∧
    (∀ c ∈ publishLocal (onLocal ch ty hid) ty (some p) (some o) ts,
        c.2 = mkMsg ch.name ts ty p o) ∧
    jget (mkMsg ch.name ts ty p o) "type" = some (.str ty) ∧
    jget (mkMsg ch.name ts ty p o) "payload" = some p ∧
    jget (mkMsg ch.name ts ty p o) "origin" = some (.str o) ∧
    jget (mkMsg ch.name ts ty p o) "channel" = some (.str ch.name) := by
  refine ⟨?_, fun c hc => mem_publishLocal_snd hc, rfl, rfl, rfl, rfl⟩
  rw [invCount_publish_onLocal ch ty ty hid (some p) (some o) ts hfresh]
  have ht : topicMatches ty (chMsg ch.name ts ty (some p) (some o)) = true := by
    rw [topicMatches_iff]
    right
    exact chMsg_type ch.name ts ty (some p) (some o)
  by_cases hw : ty = "*"
  · subst hw
    have h1 : ("message" : String) ≠ "*" := by decide
    simp [ht, h1]
  · simp [hw, hty, ht]

/-- Witness for C1_local_delivery at a concrete input. -/
theorem C1_local_delivery_witness :
    invCount (publishLocal (onLocal (mkLocal "bus") "x" 0) "x"
        (some (.obj [])) (some "me") 7) 0 = 1 ∧
    (∀ c ∈ publishLocal (onLocal (mkLocal "bus") "x" 0) "x"
        (some (.obj [])) (some "me") 7,
        c.2 = mkMsg "bus" 7 "x" (.obj []) "me") ∧
    jget (mkMsg "bus" 7 "x" (.obj []) "me") "type" = some (.str "x") ∧
    jget (mkMsg "bus" 7 "x" (.obj []) "me") "payload" = some (.obj []) ∧
    jget (mkMsg "bus" 7 "x" (.obj []) "me") "origin" = some (.str "me") ∧
    jget (mkMsg "bus" 7 "x" (.obj []) "me") "channel" = some (.str "bus") :=
  C1_local_delivery (mkLocal "bus") "x" "me" 0 (.obj []) 7 (by decide)
    (fun l hl => by cases hl)

/-- Counterexample to C1 as stated: on the BroadcastChannel variant a
handler registered for topic "x" on the Channel before a publish of type
"x" on that same Channel is invoked zero times, not exactly once:
postMessage excludes the posting channel object, so with no other
same-named object the publish queues no delivery at all, and running the
(empty) queue invokes nobody. -/
theorem C1_counterexample :
    publishB [⟨"bus", false, [("x", 3)]⟩] 0 "x" (some (.obj [])) (some "me") 5
      = .ok [] ∧
    invCount (bDeliverAll [⟨"bus", false, [("x", 3)]⟩] []) 3 = 0 :=
  ⟨rfl, rfl⟩

/-- C2 (amended): matching is exact string equality plus the single
wildcard sentinel, per envelope delivered to the transport of the Channel:
on the fallback variant a freshly registered wildcard handler is invoked for
every publish on its Channel whatever the published type, and a freshly
registered concrete-topic handler is invoked for a publish iff the published
type is string-equal to its topic; on the broadcast variant, for a raw
message arriving at a channel object, a freshly registered handler with
topic mB is invoked iff mB is the wildcard or the type field of the message
is string-equal to mB.  As stated the claim fails: a publish on a
BroadcastChannel-variant Channel is not delivered to the handlers of that
same Channel (see the counterexample). -/
theorem C2_matching (ch : LocalChannel) (ty m o : String) (hid : Nat) (p : JVal)
    (ts : Int) (c : BChan) (mB : String) (hidB : Nat) (data : JVal)
    (hm : m ≠ "*") (hfresh : ∀ l ∈ ch.listeners, l.handler ≠ hid)
    (hfreshB : ∀ l ∈ c.listeners, l.2 ≠ hidB) (hcl : c.closed = false) :
    0 < invCount (publishLocal (onLocal ch "*" hid) ty (some p) (some o) ts) hid ∧
    (0 < invCount (publishLocal (onLocal ch m hid) ty (some p) (some o) ts) hid
        ↔ m = ty) ∧
    (0 < invCount (deliverData (onB c mB hidB) data) hidB
        ↔ (mB = "*" ∨ jget data "type" = some (.str mB))) := by
  refine ⟨?_, ?_, ?_⟩
  · rw [invCount_publish_onLocal ch "*" ty hid (some p) (some o) ts hfresh]
    have hw : topicMatches "*" (chMsg ch.name ts ty (some p) (some o)) = true := by
      simp [topicMatches]
    by_cases hmt : ("message" : String) = ty <;> simp [hmt, hw]
  · rw [invCount_publish_onLocal ch m ty hid (some p) (some o) ts hfresh]
    have hjm : jeqStr (jget (chMsg ch.name ts ty (some p) (some o)) "type") m
        = (ty == m) := by
      rw [chMsg_type]
      rfl
    have htm : topicMatches m (chMsg ch.name ts ty (some p) (some o)) = (ty == m) := by
      unfold topicMatches
      rw [hjm]
      simp [hm]
    by_cases hmy : m = ty
    · subst hmy
      simp [htm, hm]
    · have hbe : (ty == m) = false := beq_eq_false_iff_ne.mpr fun h => hmy h.symm
      simp [htm, hbe, hmy, hm]
  · rw [invCount_deliver_onB c mB hidB data hfreshB hcl, ← topicMatches_iff]
    by_cases h : topicMatches mB data <;> simp [h]

/-- Witness for C2_matching at a concrete input. -/
theorem C2_matching_witness :
    0 < invCount (publishLocal (onLocal (mkLocal "bus") "*" 0) "x"
        (some (.obj [])) (some "o") 0) 0 ∧
    (0 < invCount (publishLocal (onLocal (mkLocal "bus") "y" 0) "x"
        (some (.obj [])) (some "o") 0) 0 ↔ ("y" : String) = "x") ∧
    (0 < invCount (deliverData (onB ⟨"bus", false, []⟩ "z" 1)
        (.obj [("type", .str "z")])) 1
      ↔ (("z" : String) = "*" ∨
          jget (.obj [("type", .str "z")]) "type" = some (.str "z"))) :=
  C2_matching (mkLocal "bus") "x" "y" "o" 0 (.obj []) 0 ⟨"bus", false, []⟩ "z" 1
    (.obj [("type", .str "z")]) (by decide) (fun l hl => by cases hl)
    (fun l hl => by cases hl) rfl

/-- Counterexample to C2 as stated: on the BroadcastChannel variant a
wildcard handler registered on the Channel is NOT invoked for an envelope
published on that same Channel: the publish queues no delivery (the posting
object is excluded), so the handler receives nothing. -/
theorem C2_counterexample :
    publishB [⟨"bus", false, [("*", 7)]⟩] 0 "evt" (some (.num 1)) (some "me") 2
      = .ok [] ∧
    invCount (bDeliverAll [⟨"bus", false, [("*", 7)]⟩] []) 7 = 0 :=
  ⟨rfl, rfl⟩

/-- C3: the code contradicts its own readme (`on(type, handler)` is
documented to return an unsubscribe function): the body of `on` has no
return statement, so on both transport variants the caller receives
`undefined` — modelled as `none` — and no unsubscribe capability exists.
Invoking the documented return value would be a TypeError, and no operation
of the returned API removes a single registration. -/
theorem C3_on_returns_undefined :
    (onLocalR (mkLocal "bus") "filter-range" 0).2 = none ∧
    (onBR ⟨"bus", false, []⟩ "filter-range" 0).2 = none :=
  ⟨rfl, rfl⟩

/-- C4: evaluating the code at the failing inputs.  On the fallback variant
close() is a no-op (an EventTarget has no close method), so a publish after
close() still delivers to the handler registered before the close — the
registration was never released.  On the BroadcastChannel variant a publish
after close() throws InvalidStateError out of postMessage, which publish
does not catch. -/
theorem C4_publish_after_close :
    publishLocal (closeLocal (onLocal (mkLocal "bus") "x" 4)) "x"
        (some (.obj [])) (some "o") 1
      = [(4, mkMsg "bus" 1 "x" (.obj []) "o")] ∧
    publishB (bCloseAt [⟨"bus", false, []⟩] 0) 0 "x" (some (.obj [])) (some "o") 1
      = .error "InvalidStateError" :=
  ⟨rfl, rfl⟩

/-- C5: close() never raises to its caller on either variant: its body
`if (t.close) try { t.close(); } catch (_) {}` catches whatever the
primitive teardown might throw — for every teardown behaviour the caller
sees a normal return — and on the fallback variant `t.close` does not exist
so nothing runs at all; moreover closing more than once is a no-op on both
variants (a second close leaves the state reached by the first unchanged). -/
theorem C5_close_idempotent_never_raises :
    (∀ prim : BChan → Except String BChan, ∀ c : BChan,
        ∃ c2 : BChan, closeCaught prim c = .ok c2) ∧
    (∀ c : BChan, bClose (bClose c) = bClose c) ∧
    (∀ ch : LocalChannel,
        closeLocal ch = ch ∧ closeLocal (closeLocal ch) = closeLocal ch) := by
  refine ⟨fun prim c => ?_, fun c => rfl, fun ch => ⟨rfl, rfl⟩⟩
  unfold closeCaught
  cases h : prim c with
  | ok c2 => exact ⟨c2, rfl⟩
  | error e => exact ⟨c, rfl⟩

/-- C6: for the debounce wrapper, a burst of M ≥ 1 calls within one frame
(the list `a :: rest`) produces exactly one execution of the wrapped
function at that frame, with the arguments `a` of the first — scheduling —
call of the burst; and a further call after the frame callback has fired
schedules exactly one more execution, which the next frame runs: no
execution is lost across the frame boundary. -/
theorem C6_rafDebounce (A : Type) (a : A) (rest : List A) (b : A) :
    (debRun ⟨none, []⟩ ((a :: rest).map DebEvent.call ++ [DebEvent.frame])).execs
      = [a] ∧
    (debRun ⟨none, []⟩ ((a :: rest).map DebEvent.call
        ++ [DebEvent.frame, DebEvent.call b, DebEvent.frame])).execs
      = [a, b] := by
  have hburst : debRun (⟨none, []⟩ : DebState A) ((a :: rest).map DebEvent.call)
      = ⟨some a, []⟩ := debRun_calls_pending a [] rest
  constructor
  · show (List.foldl debStep ⟨none, []⟩
        ((a :: rest).map DebEvent.call ++ [DebEvent.frame])).execs = [a]
    rw [List.foldl_append]
    show (debRun (debRun ⟨none, []⟩ ((a :: rest).map DebEvent.call))
        [DebEvent.frame]).execs = [a]
    rw [hburst]
    rfl
  · show (List.foldl debStep ⟨none, []⟩ ((a :: rest).map DebEvent.call
        ++ [DebEvent.frame, DebEvent.call b, DebEvent.frame])).execs = [a, b]
    rw [List.foldl_append]
    show (debRun (debRun ⟨none, []⟩ ((a :: rest).map DebEvent.call))
        [DebEvent.frame, DebEvent.call b, DebEvent.frame]).execs = [a, b]
    rw [hburst]
    rfl

/-- C7 (amended): on the fallback variant every matching handler is invoked
synchronously within the publish call — the call returns the completed
invocation log — but not in global registration order: for a published type
other than "message", the handlers registered for the concrete published
type run first (in registration order among themselves) and the wildcard
handlers after them (in registration order among themselves); for the
published type exactly "message", the two "message"-named dispatches run
the matching handlers (wildcard and concrete-"message" registrations,
interleaved in global registration order) twice each.  On the
BroadcastChannel variant nothing at all is delivered during publish:
postMessage only queues tasks, and every queued destination differs from
the publishing channel object, so its same-context listeners are excluded
even later. -/
theorem C7_delivery_order (name : String) (regs : List (String × Nat)) (ty : String)
    (p? : Option JVal) (o? : Option String) (ts : Int)
    (w : List BChan) (src : Nat) (dataB : JVal) (pend : List (Nat × JVal))
    (hpost : bPostMessage w src dataB = .ok pend) :
    publishLocal (regAll (mkLocal name) regs) ty p? o? ts
      = (if ty = "message"
          then ((regs.filter fun r => r.1 == "*" || r.1 == "message").map
                fun r => (r.2, chMsg name ts ty p? o?))
            ++ ((regs.filter fun r => r.1 == "*" || r.1 == "message").map
                fun r => (r.2, chMsg name ts ty p? o?))
          else ((regs.filter fun r => r.1 == ty && r.1 != "*").map
                fun r => (r.2, chMsg name ts ty p? o?))
            ++ ((regs.filter fun r => r.1 == "*").map
                fun r => (r.2, chMsg name ts ty p? o?))) ∧
    (∀ q ∈ pend, q.1 ≠ src) := by
  refine ⟨?_, bPostMessage_ok_excludes w src dataB pend hpost⟩
  by_cases hty : ty = "message"
  · subst hty
    rw [if_pos rfl]
    exact publishLocal_formula_message name regs p? o? ts
  · rw [if_neg hty]
    exact publishLocal_formula name regs ty p? o? ts hty

/-- Witness for C7_delivery_order at a concrete input. -/
theorem C7_delivery_order_witness :
    publishLocal (regAll (mkLocal "bus") [("*", 1), ("x", 2)]) "x"
        (some (.obj [])) (some "o") 0
      = (if ("x" : String) = "message"
          then (([("*", 1), ("x", 2)].filter
                fun r : String × Nat => r.1 == "*" || r.1 == "message").map
                fun r => (r.2, chMsg "bus" 0 "x" (some (.obj [])) (some "o")))
            ++ (([("*", 1), ("x", 2)].filter
                fun r : String × Nat => r.1 == "*" || r.1 == "message").map
                fun r => (r.2, chMsg "bus" 0 "x" (some (.obj [])) (some "o")))
          else (([("*", 1), ("x", 2)].filter
                fun r : String × Nat => r.1 == "x" && r.1 != "*").map
                fun r => (r.2, chMsg "bus" 0 "x" (some (.obj [])) (some "o")))
            ++ (([("*", 1), ("x", 2)].filter
                fun r : String × Nat => r.1 == "*").map
                fun r => (r.2, chMsg "bus" 0 "x" (some (.obj [])) (some "o")))) ∧
    (∀ q ∈ [((1 : Nat), JVal.num 0)], q.1 ≠ 0) :=
  C7_delivery_order "bus" [("*", 1), ("x", 2)] "x" (some (.obj [])) (some "o") 0
    [⟨"bus", false, [("x", 3)]⟩, ⟨"bus", false, []⟩] 0 (.num 0)
    [(1, .num 0)] rfl

/-- Counterexample to C7 as stated: a wildcard listener (handler 1) is
registered first and a concrete listener (handler 2) second; publishing the
concrete type invokes handler 2 before handler 1 — the synchronous
invocation order is not the registration order. -/
theorem C7_counterexample :
    publishLocal (onLocal (onLocal (mkLocal "bus") "*" 1) "x" 2) "x"
        (some (.obj [])) (some "o") 0
      = [(2, mkMsg "bus" 0 "x" (.obj []) "o"),
         (1, mkMsg "bus" 0 "x" (.obj []) "o")] := rfl

/-- C8 (amended): for a raw arriving message lacking a type field, a
freshly registered concrete-topic listener does not match and is not
invoked — but a freshly registered wildcard listener IS invoked, receiving
the raw message; delivery is a total function over the listener list, so
the other listeners are still processed.  As stated (no listener at all is
invoked) the claim fails on wildcard listeners (see the counterexample). -/
theorem C8_typeless_message (c : BChan) (m : String) (hid : Nat) (data : JVal)
    (cw : BChan) (hidw : Nat)
    (hm : m ≠ "*") (hnt : jget data "type" = none)
    (hfresh : ∀ l ∈ c.listeners, l.2 ≠ hid) (hcl : c.closed = false)
    (hfreshw : ∀ l ∈ cw.listeners, l.2 ≠ hidw) (hclw : cw.closed = false) :
    invCount (deliverData (onB c m hid) data) hid = 0 ∧
    invCount (deliverData (onB cw "*" hidw) data) hidw = 1 ∧
    deliverData (onB cw "*" hidw) data = deliverData cw data ++ [(hidw, data)] := by
  have hjf : jeqStr (jget data "type") m = false := by
    rw [hnt]
    rfl
  have hm1 : topicMatches m data = false := by
    unfold topicMatches
    rw [hjf, Bool.or_false, beq_eq_false_iff_ne]
    exact hm
  have hw1 : topicMatches "*" data = true := by simp [topicMatches]
  refine ⟨?_, ?_, ?_⟩
  · rw [invCount_deliver_onB c m hid data hfresh hcl, hm1]
    rfl
  · rw [invCount_deliver_onB cw "*" hidw data hfreshw hclw, hw1]
    rfl
  · rw [deliverData_onB cw "*" hidw data hclw, hw1]
    rfl

/-- Witness for C8_typeless_message at a concrete input. -/
theorem C8_typeless_message_witness :
    invCount (deliverData (onB ⟨"bus", false, []⟩ "x" 0)
        (.obj [("payload", .num 1)])) 0 = 0 ∧
    invCount (deliverData (onB ⟨"bus2", false, []⟩ "*" 9)
        (.obj [("payload", .num 1)])) 9 = 1 ∧
    deliverData (onB ⟨"bus2", false, []⟩ "*" 9) (.obj [("payload", .num 1)])
      = deliverData ⟨"bus2", false, []⟩ (.obj [("payload", .num 1)])
        ++ [(9, .obj [("payload", .num 1)])] :=
  C8_typeless_message ⟨"bus", false, []⟩ "x" 0 (.obj [("payload", .num 1)])
    ⟨"bus2", false, []⟩ 9 (by decide) rfl (fun l hl => by cases hl) rfl
    (fun l hl => by cases hl) rfl

/-- Counterexample to C8 as stated: a wildcard listener registered on a
broadcast channel object IS invoked, with the raw message itself, when a
message lacking a type field arrives — the claim says no registered
listener is invoked with it. -/
theorem C8_counterexample :
    deliverData ⟨"bus", false, [("*", 9)]⟩ (.obj [("payload", .num 1)])
      = [(9, .obj [("payload", .num 1)])] := rfl

/-- C9: publish with the payload argument omitted stamps the empty object
as payload, publish with the origin argument omitted stamps the sentinel
"udf" as origin, and — whatever the caller passes — the channel and ts
fields of the constructed envelope come from the channel name and the
publish-time clock, never from the caller. -/
theorem C9_publish_defaults (name ty o : String) (ts : Int) (p : JVal) :
    jget (chMsg name ts ty none none) "payload" = some (.obj []) ∧
    jget (chMsg name ts ty none none) "origin" = some (.str "udf") ∧
    jget (chMsg name ts ty (some p) (some o)) "channel" = some (.str name) ∧
    jget (chMsg name ts ty (some p) (some o)) "ts" = some (.num ts) ∧
    jget (chMsg name ts ty none none) "channel" = some (.str name) ∧
    jget (chMsg name ts ty none none) "ts" = some (.num ts) :=
  ⟨rfl, rfl, rfl, rfl, rfl, rfl⟩

/-- C10: on the local-fallback variant a publish whose type is exactly
"message" dispatches a type-named event and then the extra "message" event,
i.e. two "message" events carrying the same envelope — so a wildcard
handler (1) and a concrete "message" handler (2) registered on the Channel
are each invoked twice, with the same envelope, for that single publish. -/
theorem C10_message_double_delivery (p : JVal) (o : String) (ts : Int) (name : String) :
    publishLocal (onLocal (onLocal (mkLocal name) "*" 1) "message" 2) "message"
        (some p) (some o) ts
      = [(1, mkMsg name ts "message" p o), (2, mkMsg name ts "message" p o),
         (1, mkMsg name ts "message" p o), (2, mkMsg name ts "message" p o)] ∧
    invCount (publishLocal (onLocal (onLocal (mkLocal name) "*" 1) "message" 2)
        "message" (some p) (some o) ts) 1 = 2 ∧
    invCount (publishLocal (onLocal (onLocal (mkLocal name) "*" 1) "message" 2)
        "message" (some p) (some o) ts) 2 = 2 :=
  ⟨rfl, rfl, rfl⟩

end FusedChannel
